import Mathlib

/-!
Verification of the ranked-leaderboard core of the Mindscalev2 bot
(`src/Plugins/helpers/leaderboard.py`), shallowly embedded in Lean.

Modelling conventions:
* A database row (`sqlite3.Row` after the `IFNULL(...)` defaults of the
  query in `get_all_users_sorted`) is the structure `Row`; counters are
  `Nat` (the schema stores non-negative counters and the query replaces
  NULL with 0), `user_id` is `Int` (Telegram ids).
* The SQL `ORDER BY wins DESC, total_score DESC` is modelled as a stable
  insertion sort with the corresponding relation (the spec fixes ties to
  original relative order).
* Python float arithmetic in `round(wins / gp * 100, 1)` is modelled as
  exact rational arithmetic with round-half-to-even at one decimal
  (Python 3 `round` semantics).
* Fallible retrieval (the `try`/`except` around the sqlite access) is
  modelled by an explicit `Except Unit (List Row)` argument carrying the
  outcome of the raw fetch; the exception handlers become the `.error`
  branches.
* The rendered HTML text of `_build_leaderboard_text` is abstracted to
  its block structure: the list of per-user entry blocks (`Entry`, one
  per rendered line group) and the optional trailing "Your Rank" block
  (`MeBlock`).  Every datum that appears in the emitted text is a field
  of these structures.
-/

namespace Leaderboard

/-- Python's `a or b` for strings: `a` when non-empty, else `b`.
Used for the display-name fallback chains (lines 57, 148, 165). -/
def strOr (a b : String) : String :=
  if a = "" then b else a

/-- One character of Python `html.escape(s, quote=True)`. -/
def escChar (c : Char) : String :=
  if c = '&' then "&amp;"
  else if c = '<' then "&lt;"
  else if c = '>' then "&gt;"
  else if c = '"' then "&quot;"
  else if c = Char.ofNat 39 then "&#x27;"
  else String.singleton c

/-- Python `html.escape` (quote=True), applied character-wise.  Python
replaces `&` first, so escaping is equivalent to this single pass. -/
def htmlEscape (s : String) : String :=
  String.join (s.toList.map escChar)

/-- Round-half-to-even on rationals (Python 3 `round` tie behaviour). -/
def roundHalfEven (q : ℚ) : ℤ :=
  let fl := q.floor
  let fr := q - (fl : ℚ)
  if fr < 1 / 2 then fl
  else if 1 / 2 < fr then fl + 1
  else if fl % 2 = 0 then fl else fl + 1

/-- Python `round(q, 1)` modelled exactly on rationals. -/
def pyRound1 (q : ℚ) : ℚ :=
  (roundHalfEven (q * 10) : ℚ) / 10

/-- `round(wins / gp * 100, 1) if gp > 0 else 0` (lines 55, 147, 187, 517). -/
def winPercent (wins gp : Nat) : ℚ :=
  if 0 < gp then pyRound1 ((wins : ℚ) / (gp : ℚ) * 100) else 0

/-- `_medal_for_rank` (line 92): medal strings for the top three ranks. -/
def medalForRank (rank : Nat) : String :=
  if rank = 1 then "🥇" else if rank = 2 then "🥈" else if rank = 3 then "🥉" else ""

/-- A user row as produced by the SELECT of `get_all_users_sorted`
(lines 23-41): every column already defaulted by `IFNULL`. -/
structure Row where
  user_id : Int
  username : String
  first_name : String
  games_played : Nat
  wins : Nat
  losses : Nat
  rounds_played : Nat
  eliminations : Nat
  total_score : Nat
  penalties : Nat
deriving DecidableEq, Repr

/-- `ORDER BY wins DESC, total_score DESC`: `x` may come before `y`. -/
def leWinsScore (x y : Row) : Bool :=
  decide (y.wins < x.wins ∨ (y.wins = x.wins ∧ y.total_score ≤ x.total_score))

/-- `sorted(..., key=lambda x: x['total_score'], reverse=True)`
(line 513): `x` may come before `y` under score-only descending order. -/
def leScoreOnly (x y : Row) : Bool :=
  decide (y.total_score ≤ x.total_score)

/-- Stable insertion of `x` into `l`: `x` is placed before the first
element it is allowed to precede, hence before later-arriving ties. -/
def insertRow (le : Row → Row → Bool) (x : Row) : List Row → List Row
  | [] => [x]
  | y :: ys => if le x y then x :: y :: ys else y :: insertRow le x ys

/-- Stable sort by `le` (models the stable orderings of §3 of the spec:
SQL `ORDER BY` / Python `sorted`, ties kept in original order). -/
def sortRows (le : Row → Row → Bool) : List Row → List Row
  | [] => []
  | x :: xs => insertRow le x (sortRows le xs)

/-- `get_all_users_sorted(limit)` (lines 17-47): fetch all user rows
ordered by wins then score, truncated to `limit`; any retrieval fault is
caught and yields the empty list (lines 45-47). -/
def get_all_users_sorted (fetched : Except Unit (List Row)) (limit : Nat) : List Row :=
  match fetched with
  | Except.ok rows => (sortRows leWinsScore rows).take limit
  | Except.error _ => []

/-- The dictionary returned by `get_user_rank` (lines 56-68 / 70-82 / 85-89). -/
structure Summary where
  username : String
  rank : Nat
  total_users : Nat
  total_played : Nat
  wins : Nat
  losses : Nat
  win_percent : ℚ
  rounds_played : Nat
  eliminations : Nat
  total_score : Nat
  penalties : Nat
deriving DecidableEq, Repr

/-- The scan of lines 52-53: walk the list with a 1-based counter and
return the counter together with the first row whose `user_id` matches. -/
def findWithRank (uid : Int) (k : Nat) : List Row → Option (Nat × Row)
  | [] => none
  | r :: rs => if r.user_id = uid then some (k, r) else findWithRank uid (k + 1) rs

/-- `next((idx for idx, r in enumerate(l, k) if r['user_id'] == uid), default)`
without its default: 1-based index of the first matching row (line 163). -/
def rankFrom (uid : Int) (k : Nat) : List Row → Option Nat
  | [] => none
  | r :: rs => if r.user_id = uid then some k else rankFrom uid (k + 1) rs

/-- `get_user_rank(user_id)` (lines 49-89).  The only fallible step is
the retrieval, whose outcome is the `fetched` argument: the `except`
branch of lines 83-89 corresponds to `fetched = .error _` (absorbed into
the empty ordering by `get_all_users_sorted`, which yields the identical
degraded dictionary). -/
def get_user_rank (fetched : Except Unit (List Row)) (user_id : Int) : Summary :=
  let all_users := get_all_users_sorted fetched 100
  match findWithRank user_id 1 all_users with
  | some (idx, row) =>
      { username := strOr row.username (strOr row.first_name "Unknown")
        rank := idx
        total_users := all_users.length
        total_played := row.games_played
        wins := row.wins
        losses := row.losses
        win_percent := winPercent row.wins row.games_played
        rounds_played := row.rounds_played
        eliminations := row.eliminations
        total_score := row.total_score
        penalties := row.penalties }
  | none =>
      { username := "Unknown"
        rank := all_users.length + 1
        total_users := all_users.length
        total_played := 0
        wins := 0
        losses := 0
        win_percent := 0
        rounds_played := 0
        eliminations := 0
        total_score := 0
        penalties := 0 }

/-- One rendered leaderboard entry block (lines 139-155): everything
that is interpolated into the four text lines of one user. -/
structure Entry where
  rank : Nat
  medal : String
  highlight : Bool
  display_name : String
  user_id : Int
  games : Nat
  win_percent : ℚ
  wins : Nat
  losses : Nat
  total_score : Nat
  penalties : Nat
deriving DecidableEq, Repr

/-- The trailing "Your Rank" block (lines 184-189), holding the `me`
dictionary of lines 164-182 plus the win percent computed at line 187. -/
structure MeBlock where
  username : String
  rank : Nat
  games_played : Nat
  wins : Nat
  losses : Nat
  total_score : Nat
  penalties : Nat
  win_percent : ℚ
deriving DecidableEq, Repr

/-- The triple returned by `_build_leaderboard_text` (line 191), with
the text abstracted to its entry blocks and optional trailing block. -/
structure RenderResult where
  entries : List Entry
  yourRank : Option MeBlock
  total_pages : Nat
  page : Nat
deriving DecidableEq, Repr

/-- The entry block built for `row` at absolute rank `rank` in the loop
of lines 139-155. -/
def mkEntry (viewer_id : Int) (rank : Nat) (r : Row) : Entry :=
  { rank := rank
    medal := medalForRank rank
    highlight := r.user_id == viewer_id
    display_name := htmlEscape (strOr r.first_name (strOr r.username "Unknown"))
    user_id := r.user_id
    games := r.games_played
    win_percent := winPercent r.wins r.games_played
    wins := r.wins
    losses := r.losses
    total_score := r.total_score
    penalties := r.penalties }

/-- `for i, row in enumerate(slice, start=rank)`: entry blocks with
consecutive absolute ranks starting at `rank`. -/
def pageEntries (viewer_id : Int) : Nat → List Row → List Entry
  | _, [] => []
  | rank, r :: rs => mkEntry viewer_id rank r :: pageEntries viewer_id (rank + 1) rs

/-- `page = max(1, min(page, total_pages))` (line 132). -/
def clampPage (page : Int) (total_pages : Nat) : Nat :=
  (max 1 (min page (total_pages : Int))).toNat

/-- `_build_leaderboard_text(all_users, page, per_page, viewer_id)`
(lines 129-191).  `math.ceil(total / per_page)` is the exact ceiling
division `(total + per_page - 1) / per_page` for `per_page ≥ 1`. -/
def build_leaderboard_text (all_users : List Row) (page : Int) (per_page : Nat)
    (viewer_id : Int) : RenderResult :=
  let total := all_users.length
  let total_pages := max 1 ((total + per_page - 1) / per_page)
  let p := clampPage page total_pages
  let start_idx := (p - 1) * per_page
  let end_idx := min (start_idx + per_page) total
  let slice := (all_users.drop start_idx).take (end_idx - start_idx)
  let entries := pageEntries viewer_id (start_idx + 1) slice
  let user_in_page := slice.any (fun r => r.user_id == viewer_id)
  let yourRank : Option MeBlock :=
    if user_in_page then none
    else
      match all_users.find? (fun r => r.user_id == viewer_id) with
      | some me_row =>
          some { username := strOr me_row.username (strOr me_row.first_name "Unknown")
                 rank := (rankFrom viewer_id 1 all_users).getD (total + 1)
                 games_played := me_row.games_played
                 wins := me_row.wins
                 losses := me_row.losses
                 total_score := me_row.total_score
                 penalties := me_row.penalties
                 win_percent := winPercent me_row.wins me_row.games_played }
      | none =>
          some { username := "Unknown"
                 rank := total + 1
                 games_played := 0
                 wins := 0
                 losses := 0
                 total_score := 0
                 penalties := 0
                 win_percent := winPercent 0 0 }
  { entries := entries, yourRank := yourRank, total_pages := total_pages, page := p }

/-- One inline keyboard button: its label and callback data. -/
structure Button where
  text : String
  callback_data : String
deriving DecidableEq, Repr

/-- `_build_pager_old(page, total_pages, prefix)` (lines 97-127); the
`InlineKeyboardMarkup` is its list of button rows. -/
def build_pager_old (page : Int) (total_pages : Int) (pfx : String) :
    Option (List (List Button)) :=
  if total_pages ≤ 1 then none
  else
    let nav_row : List Button :=
      (if 1 < page then
        [{ text := "◄ Previous", callback_data := pfx ++ "_" ++ toString (page - 1) }]
       else [])
      ++ (if page < total_pages then
        [{ text := "Next ►", callback_data := pfx ++ "_" ++ toString (page + 1) }]
       else [])
    let buttons : List (List Button) :=
      (if nav_row.isEmpty then [] else [nav_row])
      ++ [[{ text := "Page " ++ toString page ++ "/" ++ toString total_pages
             callback_data := pfx ++ ":nop" }]]
    some buttons

/-- Outcome of a callback handler: silently acknowledged, or a page
edit with the parsed page number. -/
inductive CallbackResult where
  | ignored : CallbackResult
  | render : Int → CallbackResult
deriving DecidableEq, Repr

/-- Python `str.strip()` on a character list: leading and trailing
whitespace removed. -/
def trimChars (cs : List Char) : List Char :=
  ((cs.dropWhile Char.isWhitespace).reverse.dropWhile Char.isWhitespace).reverse

/-- Python `str.strip()`. -/
def pyStrip (s : String) : String :=
  String.mk (trimChars s.toList)

/-- Python `str.startswith(p)`. -/
def strStartsWith (s p : String) : Bool :=
  p.toList.isPrefixOf s.toList

/-- The characters of `s` after its first `n` characters. -/
def strDrop (s : String) (n : Nat) : String :=
  String.mk (s.toList.drop n)

/-- Python `int(str)` on ASCII input, after the sign: digits with
single underscores allowed between digits (PEP 515). -/
def pyDigits (acc : Nat) : List Char → Option Nat
  | [] => some acc
  | c :: cs =>
      if c.isDigit then pyDigits (acc * 10 + (c.toNat - 48)) cs
      else if c = '_' then
        match cs with
        | c2 :: cs2 =>
            if c2.isDigit then pyDigits (acc * 10 + (c2.toNat - 48)) cs2 else none
        | [] => none
      else none

/-- The unsigned part of Python `int(str)`: at least one leading digit. -/
def pyNatCore : List Char → Option Nat
  | [] => none
  | c :: cs => if c.isDigit then pyDigits (c.toNat - 48) cs else none

/-- Python `int(s)` for ASCII strings: surrounding whitespace stripped,
one optional sign, then digits with optional single underscores between
digits; `none` models `ValueError`. -/
def pyInt (s : String) : Option Int :=
  match trimChars s.toList with
  | [] => none
  | c :: cs =>
      if c = '+' then (pyNatCore cs).map (fun n => (n : Int))
      else if c = '-' then (pyNatCore cs).map (fun n => -(n : Int))
      else (pyNatCore (c :: cs)).map (fun n => (n : Int))

/-- The strict token grammar of the spec, `"{integer}"`: an optional
minus sign followed by one or more plain digits, nothing else. -/
def isStrictIntString (s : String) : Bool :=
  match s.toList with
  | [] => false
  | '-' :: cs => decide (cs ≠ []) && cs.all Char.isDigit
  | cs => cs.all Char.isDigit

/-- `leaderboard_callback` (lines 268-278): the pattern match on the
callback data.  Because `"leaderboard"` contains no underscore,
`data.split("_", 1)[1]` is exactly the text after the 12-character
prefix `"leaderboard_"` once `startswith` has succeeded; an
`int`-parse failure is the `ValueError` branch (line 277). -/
def leaderboard_callback (data : String) : CallbackResult :=
  let d := pyStrip data
  if strStartsWith d "leaderboard_" then
    match pyInt (strDrop d 12) with
    | some n => CallbackResult.render n
    | none => CallbackResult.ignored
  else CallbackResult.ignored

/-- `daily_leaderboard_callback` (lines 352-363): as above with prefix
`"daily_leaderboard_"`; `data.split("_", 2)[2]` is the text after the
18-character prefix since `"daily"` and `"leaderboard"` contain no
underscore. -/
def daily_leaderboard_callback (data : String) : CallbackResult :=
  let d := pyStrip data
  if strStartsWith d "daily_leaderboard_" then
    match pyInt (strDrop d 18) with
    | some n => CallbackResult.render n
    | none => CallbackResult.ignored
  else CallbackResult.ignored

/-- The daily portion of the `userinfo_callback` report (lines 508-531). -/
structure DailyStats where
  rank : Nat
  games : Nat
  wins : Nat
  losses : Nat
  score : Nat
  pen : Nat
  win_pct : ℚ
deriving DecidableEq, Repr

/-- The daily branch of `userinfo_callback` (lines 508-521): the daily
snapshot is re-sorted by `total_score` descending only (line 513), the
user's row is the first match in that order (line 514), and the rank is
its 1-based index there (line 519; `list.index` on distinct `sqlite3.Row`
objects is first-match identity lookup).  The absent case (line 521)
zeroes every field including the rank. -/
def userinfo_daily_stats (daily_users : List Row) (user_id : Int) : DailyStats :=
  let daily_users_sorted := sortRows leScoreOnly daily_users
  match daily_users_sorted.find? (fun r => r.user_id == user_id) with
  | some row =>
      { rank := (rankFrom user_id 1 daily_users_sorted).getD 0
        games := row.games_played
        wins := row.wins
        losses := row.losses
        score := row.total_score
        pen := row.penalties
        win_pct := winPercent row.wins row.games_played }
  | none =>
      { rank := 0, games := 0, wins := 0, losses := 0, score := 0, pen := 0, win_pct := 0 }

/-- Modelled from the spec: the rank the combined report would show if
the daily snapshot were ranked "by the same ranking algorithm as the
overall ordering", i.e. wins descending then total score descending
(spec §4.1: "RankedUserStore's ranking and summary algorithms apply
identically to it").  This is the spec-side definition that claim C6
compares against `userinfo_daily_stats`. -/
def winsThenScoreRank (daily_users : List Row) (user_id : Int) : Option Nat :=
  rankFrom user_id 1 (sortRows leWinsScore daily_users)

/-! ### Concrete sample data used by witnesses and counterexamples -/

/-- A row with every counter defaulted, for concrete instances. -/
def sampleRow (uid : Int) (un fn : String) (gp w sc : Nat) : Row :=
  { user_id := uid, username := un, first_name := fn, games_played := gp,
    wins := w, losses := 0, rounds_played := 0, eliminations := 0,
    total_score := sc, penalties := 0 }

/-- A record carrying both a non-empty `first_name` and a non-empty
`username`, to probe the display-name fallback order. -/
def aliceRow : Row := sampleRow 7 "bob" "Alice" 4 2 9

/-- A small three-user ordering (already wins-descending). -/
def sampleUsers : List Row :=
  [sampleRow 1 "u1" "" 4 3 30, sampleRow 2 "u2" "" 4 2 20, sampleRow 3 "u3" "" 4 1 10]

/-- Daily snapshot where wins order and score order disagree: user 1 has
more wins, user 2 has the higher score. -/
def sampleDaily : List Row :=
  [sampleRow 1 "" "" 12 10 5, sampleRow 2 "" "" 12 0 10]

/-- Row `i` of the oversized store: wins strictly decreasing in `i`, so
the wins-then-score sort keeps the construction order. -/
def bigRow (i : Nat) : Row := sampleRow (Int.ofNat i) "" "" 0 (101 - i) 0

/-- A store of 101 users; under the wins-descending order user 100 is
the 101st row and falls outside the default fetch limit of 100. -/
def bigDb : List Row := (List.range 101).map bigRow

/-! ### Lemmas about `pageEntries` -/

theorem pageEntries_length (v : Int) (k : Nat) (l : List Row) :
    (pageEntries v k l).length = l.length := by
  induction l generalizing k with
  | nil => rfl
  | cons r rs ih => simp [pageEntries, ih]

theorem pageEntries_map_rank (v : Int) (k : Nat) (l : List Row) :
    (pageEntries v k l).map Entry.rank = List.range' k l.length := by
  induction l generalizing k with
  | nil => rfl
  | cons r rs ih => simp [pageEntries, List.range'_succ, ih, mkEntry]

theorem pageEntries_take (v : Int) (k n : Nat) (l : List Row) :
    pageEntries v k (l.take n) = (pageEntries v k l).take n := by
  induction l generalizing k n with
  | nil => simp [pageEntries]
  | cons r rs ih =>
      cases n with
      | zero => simp [pageEntries]
      | succ m => simp [pageEntries, ih]

theorem pageEntries_drop (v : Int) (k n : Nat) (l : List Row) :
    pageEntries v (k + n) (l.drop n) = (pageEntries v k l).drop n := by
  induction n generalizing k l with
  | zero => simp
  | succ m ih =>
      cases l with
      | nil => simp [pageEntries]
      | cons r rs =>
          have h := ih (k + 1) rs
          simp only [List.drop_succ_cons, pageEntries, List.drop]
          have : k + (m + 1) = k + 1 + m := by omega
          rw [this, h]

theorem pageEntries_user_ids (v : Int) (k : Nat) (l : List Row) :
    (pageEntries v k l).map Entry.user_id = l.map Row.user_id := by
  induction l generalizing k with
  | nil => rfl
  | cons r rs ih => simp [pageEntries, mkEntry, ih]

/-! ### Lemmas about `clampPage` -/

theorem clampPage_pos (page : Int) (tp : Nat) : 1 ≤ clampPage page tp := by
  unfold clampPage; omega

theorem clampPage_le (page : Int) (tp : Nat) (h : 1 ≤ tp) : clampPage page tp ≤ tp := by
  unfold clampPage; omega

theorem clampPage_coe (p tp : Nat) (h1 : 1 ≤ p) (h2 : p ≤ tp) :
    clampPage (p : Int) tp = p := by
  unfold clampPage; omega

theorem clampPage_low (page : Int) (tp : Nat) (h : page < 1) :
    clampPage page tp = clampPage 1 tp := by
  unfold clampPage; omega

theorem clampPage_high (page : Int) (tp : Nat) (h : (tp : Int) < page) (h1 : 1 ≤ tp) :
    clampPage page tp = clampPage (tp : Int) tp := by
  unfold clampPage; omega

/-! ### Projections of `build_leaderboard_text` -/

theorem build_total_pages_eq (users : List Row) (page : Int) (pp : Nat) (v : Int) :
    (build_leaderboard_text users page pp v).total_pages
      = max 1 ((users.length + pp - 1) / pp) := rfl

theorem build_page_eq (users : List Row) (page : Int) (pp : Nat) (v : Int) :
    (build_leaderboard_text users page pp v).page
      = clampPage page (max 1 ((users.length + pp - 1) / pp)) := rfl

theorem build_entries_eq (users : List Row) (page : Int) (pp : Nat) (v : Int) :
    (build_leaderboard_text users page pp v).entries
      = pageEntries v ((clampPage page (max 1 ((users.length + pp - 1) / pp)) - 1) * pp + 1)
          ((users.drop ((clampPage page (max 1 ((users.length + pp - 1) / pp)) - 1) * pp)).take
            (min ((clampPage page (max 1 ((users.length + pp - 1) / pp)) - 1) * pp + pp)
                users.length
              - (clampPage page (max 1 ((users.length + pp - 1) / pp)) - 1) * pp)) := rfl

/-! ### Lemmas about the stable sort -/

theorem insertRow_perm (le : Row → Row → Bool) (x : Row) :
    ∀ l : List Row, (insertRow le x l).Perm (x :: l) := by
  intro l
  induction l with
  | nil => simp [insertRow]
  | cons y ys ih =>
      unfold insertRow
      by_cases h : le x y = true
      · simp [h]
      · simp only [h, if_neg, Bool.not_eq_true]
        exact (ih.cons y).trans (List.Perm.swap x y ys)

theorem sortRows_perm (le : Row → Row → Bool) :
    ∀ l : List Row, (sortRows le l).Perm l := by
  intro l
  induction l with
  | nil => simp [sortRows]
  | cons x xs ih =>
      exact (insertRow_perm le x (sortRows le xs)).trans (ih.cons x)

theorem mem_insertRow (le : Row → Row → Bool) (x z : Row) (l : List Row)
    (h : z ∈ insertRow le x l) : z = x ∨ z ∈ l := by
  have := (insertRow_perm le x l).mem_iff.mp h
  simpa using this

theorem insertRow_pairwise (le : Row → Row → Bool)
    (htot : ∀ x y, le x y = false → le y x = true)
    (htrans : ∀ x y z, le x y = true → le y z = true → le x z = true)
    (x : Row) (l : List Row) (h : l.Pairwise (fun a b => le a b = true)) :
    (insertRow le x l).Pairwise (fun a b => le a b = true) := by
  induction l with
  | nil => simp [insertRow]
  | cons y ys ih =>
      rcases List.pairwise_cons.mp h with ⟨hy, hys⟩
      unfold insertRow
      by_cases hxy : le x y = true
      · simp only [hxy, if_pos]
        refine List.pairwise_cons.mpr ⟨?_, h⟩
        intro z hz
        rcases List.mem_cons.mp hz with rfl | hz2
        · exact hxy
        · exact htrans x y z hxy (hy z hz2)
      · simp only [hxy, if_neg, Bool.not_eq_true]
        refine List.pairwise_cons.mpr ⟨?_, ih hys⟩
        intro z hz
        rcases mem_insertRow le x z ys hz with hzx | hz2
        · rw [hzx]
          exact htot x y (by simpa using hxy)
        · exact hy z hz2

theorem sortRows_pairwise (le : Row → Row → Bool)
    (htot : ∀ x y, le x y = false → le y x = true)
    (htrans : ∀ x y z, le x y = true → le y z = true → le x z = true)
    (l : List Row) :
    (sortRows le l).Pairwise (fun a b => le a b = true) := by
  induction l with
  | nil => simp [sortRows]
  | cons x xs ih => exact insertRow_pairwise le htot htrans x (sortRows le xs) ih

theorem leWinsScore_total (x y : Row) (h : leWinsScore x y = false) :
    leWinsScore y x = true := by
  simp only [leWinsScore, decide_eq_false_iff_not, decide_eq_true_eq] at h ⊢
  omega

theorem leWinsScore_trans (x y z : Row) (h1 : leWinsScore x y = true)
    (h2 : leWinsScore y z = true) : leWinsScore x z = true := by
  simp only [leWinsScore, decide_eq_true_eq] at h1 h2 ⊢
  omega

theorem leScoreOnly_total (x y : Row) (h : leScoreOnly x y = false) :
    leScoreOnly y x = true := by
  simp only [leScoreOnly, decide_eq_false_iff_not, decide_eq_true_eq] at h ⊢
  omega

theorem leScoreOnly_trans (x y z : Row) (h1 : leScoreOnly x y = true)
    (h2 : leScoreOnly y z = true) : leScoreOnly x z = true := by
  simp only [leScoreOnly, decide_eq_true_eq] at h1 h2 ⊢
  omega

/-! ### Lemmas about the linear scans -/

theorem findWithRank_eq_none (uid : Int) (k : Nat) (l : List Row)
    (h : ∀ r ∈ l, r.user_id ≠ uid) : findWithRank uid k l = none := by
  induction l generalizing k with
  | nil => rfl
  | cons r rs ih =>
      have hr : r.user_id ≠ uid := h r (List.mem_cons_self r rs)
      simp only [findWithRank, hr, if_neg]
      exact ih (k + 1) (fun q hq => h q (List.mem_cons_of_mem r hq))

theorem findWithRank_first (uid : Int) (l : List Row) (i : Nat) (r : Row)
    (hget : l.get? i = some r) (hr : r.user_id = uid)
    (hfirst : ∀ j q, j < i → l.get? j = some q → q.user_id ≠ uid) :
    ∀ k, findWithRank uid k l = some (k + i, r) := by
  induction l generalizing i with
  | nil => simp at hget
  | cons x xs ih =>
      intro k
      cases i with
      | zero =>
          simp only [List.get?_cons_zero, Option.some.injEq] at hget
          subst hget
          simp [findWithRank, hr]
      | succ n =>
          have hx : x.user_id ≠ uid := by
            exact hfirst 0 x (Nat.succ_pos n) rfl
          simp only [findWithRank, hx, if_neg]
          have hget' : xs.get? n = some r := by simpa using hget
          have hfirst' : ∀ j q, j < n → xs.get? j = some q → q.user_id ≠ uid := by
            intro j q hj hq
            exact hfirst (j + 1) q (by omega) (by simpa using hq)
          have heq := ih n hget' hfirst' (k + 1)
          have harith : k + 1 + n = k + (n + 1) := by omega
          rw [if_neg (fun hc => hc.elim), heq, harith]

theorem rankFrom_eq_none (uid : Int) (k : Nat) (l : List Row)
    (h : ∀ r ∈ l, r.user_id ≠ uid) : rankFrom uid k l = none := by
  induction l generalizing k with
  | nil => rfl
  | cons r rs ih =>
      have hr : r.user_id ≠ uid := h r (List.mem_cons_self r rs)
      simp only [rankFrom, hr, if_neg]
      exact ih (k + 1) (fun q hq => h q (List.mem_cons_of_mem r hq))

theorem rankFrom_first (uid : Int) (l : List Row) (i : Nat) (r : Row)
    (hget : l.get? i = some r) (hr : r.user_id = uid)
    (hfirst : ∀ j q, j < i → l.get? j = some q → q.user_id ≠ uid) :
    ∀ k, rankFrom uid k l = some (k + i) := by
  induction l generalizing i with
  | nil => simp at hget
  | cons x xs ih =>
      intro k
      cases i with
      | zero =>
          simp only [List.get?_cons_zero, Option.some.injEq] at hget
          subst hget
          simp [rankFrom, hr]
      | succ n =>
          have hx : x.user_id ≠ uid := hfirst 0 x (Nat.succ_pos n) rfl
          simp only [rankFrom, hx, if_neg]
          have hget' : xs.get? n = some r := by simpa using hget
          have hfirst' : ∀ j q, j < n → xs.get? j = some q → q.user_id ≠ uid := by
            intro j q hj hq
            exact hfirst (j + 1) q (by omega) (by simpa using hq)
          have heq := ih n hget' hfirst' (k + 1)
          have harith : k + 1 + n = k + (n + 1) := by omega
          rw [if_neg (fun hc => hc.elim), heq, harith]

theorem find_eq_none (uid : Int) (l : List Row)
    (h : ∀ r ∈ l, r.user_id ≠ uid) :
    l.find? (fun r => r.user_id == uid) = none := by
  rw [List.find?_eq_none]
  intro r hr
  simpa using h r hr

theorem find_first (uid : Int) (l : List Row) (i : Nat) (r : Row)
    (hget : l.get? i = some r) (hr : r.user_id = uid)
    (hfirst : ∀ j q, j < i → l.get? j = some q → q.user_id ≠ uid) :
    l.find? (fun x => x.user_id == uid) = some r := by
  induction l generalizing i with
  | nil => simp at hget
  | cons x xs ih =>
      cases i with
      | zero =>
          simp only [List.get?_cons_zero, Option.some.injEq] at hget
          subst hget
          simp [List.find?, hr]
      | succ n =>
          have hx : x.user_id ≠ uid := hfirst 0 x (Nat.succ_pos n) rfl
          have hxb : (x.user_id == uid) = false := by simpa using hx
          simp only [List.find?, hxb]
          exact ih n (by simpa using hget)
            (fun j q hj hq => hfirst (j + 1) q (by omega) (by simpa using hq))

/-! ### Arithmetic facts about the page count -/

theorem total_le_totalPages_mul (total pp : Nat) (hpp : 1 ≤ pp) :
    total ≤ (max 1 ((total + pp - 1) / pp)) * pp := by
  have h := Nat.div_add_mod (total + pp - 1) pp
  have h2 : (total + pp - 1) % pp < pp := Nat.mod_lt _ hpp
  rcases Nat.eq_zero_or_pos ((total + pp - 1) / pp) with hq | hq
  · rw [hq] at h
    simp only [hq]
    omega
  · have hmax : max 1 ((total + pp - 1) / pp) = (total + pp - 1) / pp :=
      Nat.max_eq_right hq
    rw [hmax, Nat.mul_comm]
    generalize hA : pp * ((total + pp - 1) / pp) = A at h
    omega

theorem lastPage_lt_total (total pp : Nat) (hpp : 1 ≤ pp)
    (h2 : 2 ≤ max 1 ((total + pp - 1) / pp)) :
    ((max 1 ((total + pp - 1) / pp)) - 1) * pp < total := by
  have h := Nat.div_add_mod (total + pp - 1) pp
  have hmod : (total + pp - 1) % pp < pp := Nat.mod_lt _ hpp
  have hq : 2 ≤ (total + pp - 1) / pp := by omega
  have hmax : max 1 ((total + pp - 1) / pp) = (total + pp - 1) / pp :=
    Nat.max_eq_right (by omega)
  rw [hmax]
  generalize hA : (total + pp - 1) / pp = q at h hq
  generalize hB : (total + pp - 1) % pp = r at h hmod
  have hsplit : pp * q = pp * (q - 1) + pp := by
    have hq1 : q = (q - 1) + 1 := by omega
    calc pp * q = pp * ((q - 1) + 1) := by rw [← hq1]
      _ = pp * (q - 1) + pp := by rw [Nat.mul_add, Nat.mul_one]
  rw [hsplit] at h
  rw [Nat.mul_comm]
  generalize hC : pp * (q - 1) = C at h ⊢
  omega

/-! ### Joining the page slices -/

theorem join_chunks (pp : Nat) :
    ∀ (n : Nat) (l : List Entry),
      (((List.range n).map (fun k => (l.drop (k * pp)).take pp)).flatten : List Entry)
        = l.take (n * pp) := by
  intro n
  induction n with
  | zero => simp
  | succ m ih =>
      intro l
      rw [List.range_succ, List.map_append, List.flatten_append, ih l]
      simp only [List.map_cons, List.map_nil, List.flatten_cons, List.flatten_nil,
        List.append_nil]
      rw [Nat.succ_mul, List.take_add]

/-! ### Claim C8: retrieval faults are recovered locally -/

/-- C8: on every retrieval fault, `get_all_users_sorted` returns the
empty ordering and `get_user_rank` returns the degraded default summary
(rank 1, zero users, all counters zero, username "Unknown"); both are
total functions of the fault outcome, so no exception propagates. -/
theorem c8_fault_recovery (limit : Nat) (uid : Int) (f : Unit) :
    get_all_users_sorted (Except.error f) limit = []
    ∧ get_user_rank (Except.error f) uid =
        { username := "Unknown", rank := 1, total_users := 0, total_played := 0,
          wins := 0, losses := 0, win_percent := 0, rounds_played := 0,
          eliminations := 0, total_score := 0, penalties := 0 } :=
  ⟨rfl, rfl⟩

/-! ### Claim C4: the pager -/

/-- C4 counterexample: at `totalPages = 0` the pager is absent although
`totalPages ≠ 1`, so "absent exactly when totalPages == 1" fails for
general integers. -/
theorem c4_counterexample :
    ¬ (build_pager_old 1 0 "leaderboard" = none ↔ (0 : Int) = 1) := by
  decide

/-- C4 (amended): `_build_pager_old` returns `none` iff `totalPages ≤ 1`
(rather than exactly at `totalPages == 1`); for `totalPages ≥ 2` it
returns the navigation row holding a "previous" control iff `page > 1`
with action token `{prefix}_{page-1}` and a "next" control iff
`page < totalPages` with token `{prefix}_{page+1}`, followed by the
non-actionable page-indicator row. -/
theorem c4_pager_amended (page tp : Int) (pfx : String) :
    (build_pager_old page tp pfx = none ↔ tp ≤ 1)
    ∧ (2 ≤ tp →
        build_pager_old page tp pfx =
          some [(if 1 < page then
                  [{ text := "◄ Previous", callback_data := pfx ++ "_" ++ toString (page - 1) }]
                 else [])
                ++ (if page < tp then
                  [{ text := "Next ►", callback_data := pfx ++ "_" ++ toString (page + 1) }]
                 else []),
                [{ text := "Page " ++ toString page ++ "/" ++ toString tp,
                   callback_data := pfx ++ ":nop" }]]) := by
  constructor
  · constructor
    · intro h
      by_contra hc
      unfold build_pager_old at h
      rw [if_neg hc] at h
      simp at h
    · intro h
      unfold build_pager_old
      rw [if_pos h]
  · intro h2
    unfold build_pager_old
    rw [if_neg (by omega)]
    by_cases hp : 1 < page
    · by_cases hn : page < tp
      · simp [hp, hn]
      · simp [hp, hn]
    · by_cases hn : page < tp
      · simp [hp, hn]
      · exact absurd h2 (by omega)

/-- C4 witness: the amended pager claim at `page = 2`, `tp = 3`. -/
theorem c4_pager_amended_witness :
    (2 : Int) ≤ 3
    ∧ ((build_pager_old 2 3 "leaderboard" = none ↔ (3 : Int) ≤ 1)
       ∧ ((2 : Int) ≤ 3 →
          build_pager_old 2 3 "leaderboard" =
            some [(if (1 : Int) < 2 then
                    [{ text := "◄ Previous", callback_data := "leaderboard" ++ "_" ++ toString ((2 : Int) - 1) }]
                   else [])
                  ++ (if (2 : Int) < 3 then
                    [{ text := "Next ►", callback_data := "leaderboard" ++ "_" ++ toString ((2 : Int) + 1) }]
                   else []),
                  [{ text := "Page " ++ toString (2 : Int) ++ "/" ++ toString (3 : Int),
                     callback_data := "leaderboard" ++ ":nop" }]])) :=
  ⟨by decide, c4_pager_amended 2 3 "leaderboard"⟩

/-! ### Claim C7: display-name fallback chains -/

/-- C7 counterexample: `aliceRow` has the non-empty first name "Alice",
yet the rank summary displays the username "bob": the summary site does
not resolve `first_name` first. -/
theorem c7_counterexample :
    aliceRow.first_name = "Alice" ∧ aliceRow.first_name ≠ ""
    ∧ (get_user_rank (Except.ok [aliceRow]) 7).username = "bob"
    ∧ (get_user_rank (Except.ok [aliceRow]) 7).username ≠ aliceRow.first_name := by
  decide

/-- C7 (amended): only the per-page entry blocks resolve the display
name as `first_name` → `username` → "Unknown" (HTML-escaped); the rank
summaries of `get_user_rank` and the trailing "Your Rank" block resolve
in the opposite order, `username` → `first_name` → "Unknown".  The last
conjunct spells out the ordered fallback semantics of the chain. -/
theorem c7_name_fallback_amended :
    (∀ (r : Row) (v : Int) (k : Nat),
      (mkEntry v k r).display_name = htmlEscape (strOr r.first_name (strOr r.username "Unknown")))
    ∧ (∀ r : Row, (get_user_rank (Except.ok [r]) r.user_id).username
        = strOr r.username (strOr r.first_name "Unknown"))
    ∧ (∀ q r : Row, q.user_id ≠ r.user_id →
        (build_leaderboard_text [q, r] 1 1 r.user_id).yourRank.map MeBlock.username
          = some (strOr r.username (strOr r.first_name "Unknown")))
    ∧ (∀ a b c : String,
        (a ≠ "" → strOr a (strOr b c) = a)
        ∧ (a = "" → b ≠ "" → strOr a (strOr b c) = b)
        ∧ (a = "" → b = "" → strOr a (strOr b c) = c)) := by
  refine ⟨fun r v k => rfl, fun r => ?_, fun q r hqr => ?_, fun a b c => ?_⟩
  · unfold get_user_rank get_all_users_sorted sortRows insertRow
    simp [findWithRank]
  · have hqb : (q.user_id == r.user_id) = false := by simpa using hqr
    have hrb : (r.user_id == r.user_id) = true := by simp
    simp [build_leaderboard_text, clampPage, List.find?, hqb, hrb, rankFrom, hqr]
  · refine ⟨fun ha => ?_, fun ha hb => ?_, fun ha hb => ?_⟩
    · simp [strOr, ha]
    · simp [strOr, ha, hb]
    · simp [strOr, ha, hb]

/-- C7 witness: the amended fallback chains applied to the concrete
record `aliceRow` (non-empty first name and username). -/
theorem c7_name_fallback_amended_witness :
    (mkEntry 0 1 aliceRow).display_name
        = htmlEscape (strOr aliceRow.first_name (strOr aliceRow.username "Unknown"))
    ∧ (get_user_rank (Except.ok [aliceRow]) aliceRow.user_id).username
        = strOr aliceRow.username (strOr aliceRow.first_name "Unknown")
    ∧ (sampleRow 1 "u1" "" 4 3 30).user_id ≠ aliceRow.user_id
    ∧ (build_leaderboard_text [sampleRow 1 "u1" "" 4 3 30, aliceRow] 1 1
          aliceRow.user_id).yourRank.map MeBlock.username
        = some (strOr aliceRow.username (strOr aliceRow.first_name "Unknown")) :=
  ⟨c7_name_fallback_amended.1 aliceRow 0 1,
   c7_name_fallback_amended.2.1 aliceRow,
   by decide,
   c7_name_fallback_amended.2.2.1 (sampleRow 1 "u1" "" 4 3 30) aliceRow (by decide)⟩

/-! ### Claim C6: the daily rank in the combined report -/

/-- C6 counterexample: on `sampleDaily` the combined report ranks user 1
second (score-only order), while the wins-then-score rule used by the
overall ordering ranks user 1 first — the two ranking algorithms differ. -/
theorem c6_counterexample :
    (userinfo_daily_stats sampleDaily 1).rank = 2
    ∧ winsThenScoreRank sampleDaily 1 = some 1
    ∧ (userinfo_daily_stats sampleDaily 1).rank ≠ 1 := by
  decide

/-- C6 (amended): the daily rank of the combined per-user report is
computed by stably re-sorting the daily snapshot by `total_score`
descending only — not by the wins-then-score rule: the score-sorted list
is a permutation of the snapshot, is sorted by score descending, a user
whose first occurrence in it is at 0-based index `i` gets daily rank
`i + 1`, and a user absent from the snapshot gets rank `0`. -/
theorem c6_daily_rank_amended (daily : List Row) (uid : Int) :
    (sortRows leScoreOnly daily).Perm daily
    ∧ (sortRows leScoreOnly daily).Pairwise (fun a b => leScoreOnly a b = true)
    ∧ (∀ (i : Nat) (r : Row), (sortRows leScoreOnly daily).get? i = some r →
        r.user_id = uid →
        (∀ (j : Nat) (q : Row), j < i → (sortRows leScoreOnly daily).get? j = some q →
          q.user_id ≠ uid) →
        (userinfo_daily_stats daily uid).rank = i + 1)
    ∧ ((∀ r ∈ daily, r.user_id ≠ uid) → (userinfo_daily_stats daily uid).rank = 0) := by
  refine ⟨sortRows_perm leScoreOnly daily,
    sortRows_pairwise leScoreOnly leScoreOnly_total leScoreOnly_trans daily,
    fun i r hget hr hfirst => ?_, fun habs => ?_⟩
  · simp only [userinfo_daily_stats]
    rw [find_first uid (sortRows leScoreOnly daily) i r hget hr hfirst,
      rankFrom_first uid (sortRows leScoreOnly daily) i r hget hr hfirst 1]
    simp [Nat.add_comm]
  · have habs' : ∀ r ∈ sortRows leScoreOnly daily, r.user_id ≠ uid := by
      intro r hrmem
      exact habs r ((sortRows_perm leScoreOnly daily).mem_iff.mp hrmem)
    simp only [userinfo_daily_stats]
    rw [find_eq_none uid (sortRows leScoreOnly daily) habs']

/-- C6 witness: the amended daily-rank claim evaluated on `sampleDaily`
for the present user 1 (first score-sorted index 1) and the absent
user 99. -/
theorem c6_daily_rank_amended_witness :
    ((sortRows leScoreOnly sampleDaily).get? 1 = some (sampleRow 1 "" "" 12 10 5)
      ∧ (userinfo_daily_stats sampleDaily 1).rank = 1 + 1)
    ∧ ((∀ r ∈ sampleDaily, r.user_id ≠ 99)
      ∧ (userinfo_daily_stats sampleDaily 99).rank = 0) :=
  ⟨⟨by decide,
    (c6_daily_rank_amended sampleDaily 1).2.2.1 1 (sampleRow 1 "" "" 12 10 5)
      (by decide) (by decide)
      (by
        intro j q hj hq
        have hj0 : j = 0 := by omega
        subst hj0
        rw [(by decide :
          (sortRows leScoreOnly sampleDaily).get? 0 = some (sampleRow 2 "" "" 12 0 10))] at hq
        cases hq
        decide)⟩,
   ⟨by decide,
    (c6_daily_rank_amended sampleDaily 99).2.2.2 (by decide)⟩⟩

/-! ### Claim C10: the default fetch limit bounds the rank scan -/

/-- C10: a user whose record exists in the store but is not among the
first 100 rows of the wins-then-score sort receives the absent-user
summary: rank `total_users + 1` (hence at most 101), all counters zero,
username "Unknown". -/
theorem c10_limit_scan (db : List Row) (uid : Int)
    (hmem : ∃ r ∈ db, r.user_id = uid)
    (habs : ∀ r ∈ get_all_users_sorted (Except.ok db) 100, r.user_id ≠ uid) :
    get_user_rank (Except.ok db) uid =
      { username := "Unknown",
        rank := (get_all_users_sorted (Except.ok db) 100).length + 1,
        total_users := (get_all_users_sorted (Except.ok db) 100).length,
        total_played := 0, wins := 0, losses := 0, win_percent := 0,
        rounds_played := 0, eliminations := 0, total_score := 0, penalties := 0 }
    ∧ (get_user_rank (Except.ok db) uid).rank ≤ 101 := by
  have hnone := findWithRank_eq_none uid 1 (get_all_users_sorted (Except.ok db) 100) habs
  have hval : get_user_rank (Except.ok db) uid =
      { username := "Unknown",
        rank := (get_all_users_sorted (Except.ok db) 100).length + 1,
        total_users := (get_all_users_sorted (Except.ok db) 100).length,
        total_played := 0, wins := 0, losses := 0, win_percent := 0,
        rounds_played := 0, eliminations := 0, total_score := 0, penalties := 0 } := by
    simp only [get_user_rank]
    rw [hnone]
  refine ⟨hval, ?_⟩
  rw [hval]
  simp only [get_all_users_sorted, List.length_take]
  omega

/-- C10 witness: in the 101-user store `bigDb`, user 100 has a record
but is outside the 100-row fetch, and gets the absent-user summary with
rank 101. -/
theorem c10_limit_scan_witness :
    (∃ r ∈ bigDb, r.user_id = 100)
    ∧ (∀ r ∈ get_all_users_sorted (Except.ok bigDb) 100, r.user_id ≠ 100)
    ∧ (get_user_rank (Except.ok bigDb) 100 =
        { username := "Unknown",
          rank := (get_all_users_sorted (Except.ok bigDb) 100).length + 1,
          total_users := (get_all_users_sorted (Except.ok bigDb) 100).length,
          total_played := 0, wins := 0, losses := 0, win_percent := 0,
          rounds_played := 0, eliminations := 0, total_score := 0, penalties := 0 }
      ∧ (get_user_rank (Except.ok bigDb) 100).rank ≤ 101) :=
  ⟨by decide, by decide, c10_limit_scan bigDb 100 (by decide) (by decide)⟩

/-! ### Claim C5: the rank summary -/

/-- C5: the fetched ordering is sorted by wins descending then score
descending (sorting is a permutation of the store); for a user whose
first occurrence in the ordering is at 0-based index `i`, `get_user_rank`
reports rank `i + 1`, `total_users` the ordering length, the user's own
counters, and `win_percent = round(wins / games_played * 100, 1)` when
`games_played > 0` and exactly `0` when `games_played = 0`; a user
absent from the ordering gets rank `total_users + 1` with all counters
zero. -/
theorem c5_rank_summary (db : List Row) (uid : Int) :
    (get_all_users_sorted (Except.ok db) 100).Pairwise (fun a b => leWinsScore a b = true)
    ∧ (sortRows leWinsScore db).Perm db
    ∧ (∀ (i : Nat) (r : Row),
        (get_all_users_sorted (Except.ok db) 100).get? i = some r →
        r.user_id = uid →
        (∀ (j : Nat) (q : Row), j < i →
          (get_all_users_sorted (Except.ok db) 100).get? j = some q → q.user_id ≠ uid) →
        (get_user_rank (Except.ok db) uid).rank = i + 1
        ∧ (get_user_rank (Except.ok db) uid).total_users
            = (get_all_users_sorted (Except.ok db) 100).length
        ∧ (get_user_rank (Except.ok db) uid).total_played = r.games_played
        ∧ (get_user_rank (Except.ok db) uid).wins = r.wins
        ∧ (r.games_played = 0 → (get_user_rank (Except.ok db) uid).win_percent = 0)
        ∧ (0 < r.games_played →
            (get_user_rank (Except.ok db) uid).win_percent
              = pyRound1 ((r.wins : ℚ) / (r.games_played : ℚ) * 100)))
    ∧ ((∀ r ∈ get_all_users_sorted (Except.ok db) 100, r.user_id ≠ uid) →
        get_user_rank (Except.ok db) uid =
          { username := "Unknown",
            rank := (get_all_users_sorted (Except.ok db) 100).length + 1,
            total_users := (get_all_users_sorted (Except.ok db) 100).length,
            total_played := 0, wins := 0, losses := 0, win_percent := 0,
            rounds_played := 0, eliminations := 0, total_score := 0, penalties := 0 }) := by
  refine ⟨?_, sortRows_perm leWinsScore db, fun i r hget hr hfirst => ?_, fun habs => ?_⟩
  · have hs := sortRows_pairwise leWinsScore leWinsScore_total leWinsScore_trans db
    exact hs.sublist (List.take_sublist 100 (sortRows leWinsScore db))
  · have hfr := findWithRank_first uid (get_all_users_sorted (Except.ok db) 100) i r
      hget hr hfirst 1
    have hval : get_user_rank (Except.ok db) uid =
        { username := strOr r.username (strOr r.first_name "Unknown")
          rank := 1 + i
          total_users := (get_all_users_sorted (Except.ok db) 100).length
          total_played := r.games_played
          wins := r.wins
          losses := r.losses
          win_percent := winPercent r.wins r.games_played
          rounds_played := r.rounds_played
          eliminations := r.eliminations
          total_score := r.total_score
          penalties := r.penalties } := by
      simp only [get_user_rank]
      rw [hfr]
    rw [hval]
    refine ⟨by simp [Nat.add_comm], rfl, rfl, rfl, fun h0 => ?_, fun hpos => ?_⟩
    · simp [winPercent, h0]
    · simp [winPercent, hpos]
  · have hnone := findWithRank_eq_none uid 1 (get_all_users_sorted (Except.ok db) 100) habs
    simp only [get_user_rank]
    rw [hnone]

/-- C5 witness: the rank summary on the three-user `sampleUsers`: user 2
(first occurrence at index 1, 4 games) and the absent user 42. -/
theorem c5_rank_summary_witness :
    ((get_user_rank (Except.ok sampleUsers) 2).rank = 1 + 1
      ∧ (get_user_rank (Except.ok sampleUsers) 2).total_users
          = (get_all_users_sorted (Except.ok sampleUsers) 100).length
      ∧ (get_user_rank (Except.ok sampleUsers) 2).total_played
          = (sampleRow 2 "u2" "" 4 2 20).games_played
      ∧ (get_user_rank (Except.ok sampleUsers) 2).wins = (sampleRow 2 "u2" "" 4 2 20).wins
      ∧ ((sampleRow 2 "u2" "" 4 2 20).games_played = 0 →
          (get_user_rank (Except.ok sampleUsers) 2).win_percent = 0)
      ∧ (0 < (sampleRow 2 "u2" "" 4 2 20).games_played →
          (get_user_rank (Except.ok sampleUsers) 2).win_percent
            = pyRound1 (((sampleRow 2 "u2" "" 4 2 20).wins : ℚ)
                / ((sampleRow 2 "u2" "" 4 2 20).games_played : ℚ) * 100)))
    ∧ get_user_rank (Except.ok sampleUsers) 42 =
        { username := "Unknown",
          rank := (get_all_users_sorted (Except.ok sampleUsers) 100).length + 1,
          total_users := (get_all_users_sorted (Except.ok sampleUsers) 100).length,
          total_played := 0, wins := 0, losses := 0, win_percent := 0,
          rounds_played := 0, eliminations := 0, total_score := 0, penalties := 0 } :=
  ⟨(c5_rank_summary sampleUsers 2).2.2.1 1 (sampleRow 2 "u2" "" 4 2 20)
      (by decide) (by decide)
      (by
        intro j q hj hq
        have hj0 : j = 0 := by omega
        subst hj0
        rw [(by decide :
          (get_all_users_sorted (Except.ok sampleUsers) 100).get? 0
            = some (sampleRow 1 "u1" "" 4 3 30))] at hq
        cases hq
        decide),
   (c5_rank_summary sampleUsers 42).2.2.2 (by decide)⟩

/-! ### Claim C9: action-token parsing -/

/-- Digit-only character lists are accepted by the underscore-tolerant
digit parser, from any accumulator. -/
theorem pyDigits_all_digits (cs : List Char) (h : cs.all Char.isDigit = true) :
    ∀ acc : Nat, ∃ n, pyDigits acc cs = some n := by
  induction cs with
  | nil => exact fun acc => ⟨acc, rfl⟩
  | cons c rest ih =>
      intro acc
      simp only [List.all_cons, Bool.and_eq_true] at h
      obtain ⟨hc, hrest⟩ := h
      rw [pyDigits.eq_def]
      simp only [hc, if_pos]
      exact ih hrest _

/-- C9 counterexample: the token `"leaderboard_1_2"` does not match the
strict `{prefix}_{integer}` grammar (its remainder `"1_2"` is not a
plain integer), yet the handler does not ignore it: Python `int`
accepts the underscore and renders page 12. -/
theorem c9_counterexample :
    leaderboard_callback "leaderboard_1_2" = CallbackResult.render 12
    ∧ isStrictIntString "1_2" = false
    ∧ leaderboard_callback "leaderboard_1_2" ≠ CallbackResult.ignored := by
  decide

/-- C9 (amended): a callback token is ignored exactly when (after
stripping) it lacks this view's `"{prefix}_"` prefix or its remainder is
rejected by Python `int` parsing; every strict-grammar digit string is
accepted by that parser, but the parser is strictly more liberal than
the `{prefix}_{integer}` grammar (it also accepts surrounding
whitespace, a sign, and underscores between digits), so some
non-grammar tokens are treated as page requests rather than ignored. -/
theorem c9_token_handling_amended (s : String) :
    (leaderboard_callback s = CallbackResult.ignored ↔
      (strStartsWith (pyStrip s) "leaderboard_" = false
        ∨ pyInt (strDrop (pyStrip s) 12) = none))
    ∧ (daily_leaderboard_callback s = CallbackResult.ignored ↔
      (strStartsWith (pyStrip s) "daily_leaderboard_" = false
        ∨ pyInt (strDrop (pyStrip s) 18) = none))
    ∧ (∀ cs : List Char, cs ≠ [] → cs.all Char.isDigit = true → pyNatCore cs ≠ none) := by
  refine ⟨?_, ?_, fun cs hne hdig => ?_⟩
  · simp only [leaderboard_callback]
    by_cases h : strStartsWith (pyStrip s) "leaderboard_"
    · cases hp : pyInt (strDrop (pyStrip s) 12) with
      | some n => simp [h, hp]
      | none => simp [h, hp]
    · simp only [Bool.not_eq_true] at h
      simp [h]
  · simp only [daily_leaderboard_callback]
    by_cases h : strStartsWith (pyStrip s) "daily_leaderboard_"
    · cases hp : pyInt (strDrop (pyStrip s) 18) with
      | some n => simp [h, hp]
      | none => simp [h, hp]
    · simp only [Bool.not_eq_true] at h
      simp [h]
  · cases cs with
    | nil => exact absurd rfl hne
    | cons c rest =>
        simp only [List.all_cons, Bool.and_eq_true] at hdig
        obtain ⟨hc, hrest⟩ := hdig
        rw [pyNatCore.eq_def]
        simp only [hc, if_pos]
        obtain ⟨n, hn⟩ := pyDigits_all_digits rest hrest (c.toNat - 48)
        rw [hn]
        simp

/-- C9 witness: the amended token claim at the well-formed token
`"leaderboard_42"` and the digit string `"42"`. -/
theorem c9_token_handling_amended_witness :
    (['4', '2'] : List Char) ≠ []
    ∧ (['4', '2'] : List Char).all Char.isDigit = true
    ∧ pyNatCore ['4', '2'] ≠ none :=
  ⟨by decide, by decide,
   (c9_token_handling_amended "leaderboard_42").2.2 ['4', '2'] (by decide) (by decide)⟩

/-! ### Claim C2: defensive clamping -/

/-- Renders depend on the page number only through the clamp. -/
theorem build_page_congr (users : List Row) (pp : Nat) (v : Int) (p q : Int)
    (h : clampPage p (max 1 ((users.length + pp - 1) / pp))
       = clampPage q (max 1 ((users.length + pp - 1) / pp))) :
    build_leaderboard_text users p pp v = build_leaderboard_text users q pp v := by
  simp only [build_leaderboard_text]
  rw [h]

/-- C2: requesting `page < 1` renders exactly page 1, requesting
`page > totalPages` renders exactly page `totalPages`, and the returned
clamped page always lies in `[1, totalPages]`. -/
theorem c2_clamping (users : List Row) (pp : Nat) (v : Int) (p : Int) (_hpp : 1 ≤ pp) :
    (p < 1 → build_leaderboard_text users p pp v = build_leaderboard_text users 1 pp v)
    ∧ (((build_leaderboard_text users p pp v).total_pages : Int) < p →
        build_leaderboard_text users p pp v
          = build_leaderboard_text users
              ((build_leaderboard_text users p pp v).total_pages : Int) pp v)
    ∧ 1 ≤ (build_leaderboard_text users p pp v).page
    ∧ (build_leaderboard_text users p pp v).page
        ≤ (build_leaderboard_text users p pp v).total_pages := by
  have hT : 1 ≤ max 1 ((users.length + pp - 1) / pp) := le_max_left 1 _
  refine ⟨fun hlow => ?_, fun hhigh => ?_, ?_, ?_⟩
  · exact build_page_congr users pp v p 1 (clampPage_low p _ hlow)
  · rw [build_total_pages_eq] at hhigh
    exact build_page_congr users pp v p _ (clampPage_high p _ hhigh hT)
  · rw [build_page_eq]
    exact clampPage_pos p _
  · rw [build_page_eq, build_total_pages_eq]
    exact clampPage_le p _ hT

/-- C2 witness: clamping on `sampleUsers` (two pages at two per page)
for the out-of-range request `page = -5`. -/
theorem c2_clamping_witness :
    1 ≤ 2
    ∧ (((-5 : Int) < 1 →
        build_leaderboard_text sampleUsers (-5) 2 9 = build_leaderboard_text sampleUsers 1 2 9)
      ∧ (((build_leaderboard_text sampleUsers (-5) 2 9).total_pages : Int) < (-5 : Int) →
          build_leaderboard_text sampleUsers (-5) 2 9
            = build_leaderboard_text sampleUsers
                ((build_leaderboard_text sampleUsers (-5) 2 9).total_pages : Int) 2 9)
      ∧ 1 ≤ (build_leaderboard_text sampleUsers (-5) 2 9).page
      ∧ (build_leaderboard_text sampleUsers (-5) 2 9).page
          ≤ (build_leaderboard_text sampleUsers (-5) 2 9).total_pages) :=
  ⟨by decide, c2_clamping sampleUsers 2 9 (-5) (by decide)⟩

/-! ### Claim C3: self-location fallback -/

/-- `pageEntries` preserves the viewer-membership test of the slice. -/
theorem pageEntries_any_user (v : Int) (k : Nat) (l : List Row) :
    (pageEntries v k l).any (fun e => e.user_id == v)
      = l.any (fun r => r.user_id == v) := by
  induction l generalizing k with
  | nil => rfl
  | cons r rs ih => simp [pageEntries, mkEntry, ih]

/-- The "Your Rank" block in terms of the rendered entries: present iff
the viewer is absent from the page, built from the first matching record
of the full ordering (lines 160-189). -/
theorem yourRank_spec (users : List Row) (page : Int) (pp : Nat) (v : Int) :
    (build_leaderboard_text users page pp v).yourRank
      = (if (build_leaderboard_text users page pp v).entries.any (fun e => e.user_id == v)
         then none
         else
           match users.find? (fun r => r.user_id == v) with
           | some me_row =>
               some { username := strOr me_row.username (strOr me_row.first_name "Unknown")
                      rank := (rankFrom v 1 users).getD (users.length + 1)
                      games_played := me_row.games_played
                      wins := me_row.wins
                      losses := me_row.losses
                      total_score := me_row.total_score
                      penalties := me_row.penalties
                      win_percent := winPercent me_row.wins me_row.games_played }
           | none =>
               some { username := "Unknown", rank := users.length + 1, games_played := 0,
                      wins := 0, losses := 0, total_score := 0, penalties := 0,
                      win_percent := winPercent 0 0 }) := by
  rw [build_entries_eq users page pp v, pageEntries_any_user]
  rfl

/-- C3: the trailing "Your Rank" block is appended exactly when no entry
of the rendered slice belongs to the viewer; when the viewer's first
occurrence in the full ordering is at 0-based index `i`, the block shows
absolute rank `i + 1` and the viewer's own record; when the viewer is
absent from the ordering the block shows rank `total_users + 1` with
all-zero counters. -/
theorem c3_self_location (users : List Row) (page : Int) (pp : Nat) (v : Int) :
    ((∃ e ∈ (build_leaderboard_text users page pp v).entries, e.user_id = v) ↔
        (build_leaderboard_text users page pp v).yourRank = none)
    ∧ (∀ (i : Nat) (r : Row), users.get? i = some r → r.user_id = v →
        (∀ (j : Nat) (q : Row), j < i → users.get? j = some q → q.user_id ≠ v) →
        ∀ b, (build_leaderboard_text users page pp v).yourRank = some b →
          b.rank = i + 1
          ∧ b.username = strOr r.username (strOr r.first_name "Unknown")
          ∧ b.games_played = r.games_played
          ∧ b.wins = r.wins)
    ∧ ((∀ r ∈ users, r.user_id ≠ v) →
        (build_leaderboard_text users page pp v).yourRank =
          some { username := "Unknown", rank := users.length + 1, games_played := 0,
                 wins := 0, losses := 0, total_score := 0, penalties := 0,
                 win_percent := 0 }) := by
  refine ⟨?_, fun i r hget hr hfirst b hb => ?_, fun habs => ?_⟩
  · rw [yourRank_spec]
    by_cases hin :
        ((build_leaderboard_text users page pp v).entries.any (fun e => e.user_id == v)) = true
    · rw [if_pos hin]
      refine iff_of_true ?_ rfl
      rcases List.any_eq_true.mp hin with ⟨e, he, heq⟩
      exact ⟨e, he, by simpa using heq⟩
    · rw [if_neg hin]
      refine iff_of_false ?_ ?_
      · intro hex
        rcases hex with ⟨e, he, heq⟩
        exact hin (List.any_eq_true.mpr ⟨e, he, by simpa using heq⟩)
      · cases hfind : users.find? (fun r => r.user_id == v) with
        | some m => simp [hfind]
        | none => simp [hfind]
  · rw [yourRank_spec] at hb
    by_cases hin :
        ((build_leaderboard_text users page pp v).entries.any (fun e => e.user_id == v)) = true
    · rw [if_pos hin] at hb
      cases hb
    · rw [if_neg hin, find_first v users i r hget hr hfirst,
        rankFrom_first v users i r hget hr hfirst 1] at hb
      cases hb
      refine ⟨by simp [Nat.add_comm], rfl, rfl, rfl⟩
  · have hany : ((build_leaderboard_text users page pp v).entries.any
        (fun e => e.user_id == v)) = false := by
      rw [build_entries_eq users page pp v, pageEntries_any_user]
      rw [List.any_eq_false]
      intro r hrmem
      have hr1 : r ∈ users :=
        List.mem_of_mem_drop (List.mem_of_mem_take hrmem)
      simpa using habs r hr1
    rw [yourRank_spec, if_neg (by simp [hany]), find_eq_none v users habs]
    simp [winPercent]

/-- C3 witness: on `sampleUsers` with two entries per page, viewer 3
(first occurrence at index 2) is absent from page 1 and gets a block of
rank 3; the absent viewer 42 gets the all-zero block of rank 4; viewer 1
is on page 1, so no block is appended. -/
theorem c3_self_location_witness :
    (∀ b, (build_leaderboard_text sampleUsers 1 2 3).yourRank = some b →
      b.rank = 2 + 1
      ∧ b.username = strOr (sampleRow 3 "u3" "" 4 1 10).username
          (strOr (sampleRow 3 "u3" "" 4 1 10).first_name "Unknown")
      ∧ b.games_played = (sampleRow 3 "u3" "" 4 1 10).games_played
      ∧ b.wins = (sampleRow 3 "u3" "" 4 1 10).wins)
    ∧ (build_leaderboard_text sampleUsers 1 2 42).yourRank =
        some { username := "Unknown", rank := sampleUsers.length + 1, games_played := 0,
               wins := 0, losses := 0, total_score := 0, penalties := 0,
               win_percent := 0 } :=
  ⟨(c3_self_location sampleUsers 1 2 3).2.1 2 (sampleRow 3 "u3" "" 4 1 10)
      (by decide) (by decide)
      (by
        intro j q hj hq
        rcases (by omega : j = 0 ∨ j = 1) with hj0 | hj1
        · subst hj0
          rw [(by decide : sampleUsers.get? 0 = some (sampleRow 1 "u1" "" 4 3 30))] at hq
          cases hq
          decide
        · subst hj1
          rw [(by decide : sampleUsers.get? 1 = some (sampleRow 2 "u2" "" 4 2 20))] at hq
          cases hq
          decide),
   (c3_self_location sampleUsers 1 2 42).2.2 (by decide)⟩

/-! ### Claim C1: pagination partitions the ordering -/

/-- C1: `totalPages` is `max 1` of the ceiling of `total / perPage`
(conjuncts 1-3 characterise the ceiling: the pages cover the ordering
and the last page is not empty); every page `p ∈ [1, totalPages]`
renders exactly `min perPage (total - (p-1)*perPage)` entries whose
displayed ranks are the consecutive absolute positions starting at
`(p-1)*perPage + 1`; and the concatenation of the slices of pages
`1..totalPages` is exactly the entry list of the full ordering — the
pages partition the ordering in order, without gaps or overlap. -/
theorem c1_pagination (users : List Row) (pp : Nat) (v : Int) (hpp : 1 ≤ pp) :
    (build_leaderboard_text users 1 pp v).total_pages
        = max 1 ((users.length + pp - 1) / pp)
    ∧ users.length ≤ (build_leaderboard_text users 1 pp v).total_pages * pp
    ∧ (2 ≤ (build_leaderboard_text users 1 pp v).total_pages →
        ((build_leaderboard_text users 1 pp v).total_pages - 1) * pp < users.length)
    ∧ (∀ p : Nat, 1 ≤ p → p ≤ (build_leaderboard_text users 1 pp v).total_pages →
        (build_leaderboard_text users (p : Int) pp v).entries.length
            = min pp (users.length - (p - 1) * pp)
        ∧ (build_leaderboard_text users (p : Int) pp v).entries.map Entry.rank
            = List.range' ((p - 1) * pp + 1) (min pp (users.length - (p - 1) * pp)))
    ∧ ((List.range (build_leaderboard_text users 1 pp v).total_pages).map
          (fun k : Nat => (build_leaderboard_text users ((k : Int) + 1) pp v).entries)).flatten
        = pageEntries v 1 users := by
  refine ⟨build_total_pages_eq users 1 pp v, ?_, ?_, fun p hp1 hp2 => ?_, ?_⟩
  · rw [build_total_pages_eq]
    exact total_le_totalPages_mul users.length pp hpp
  · rw [build_total_pages_eq]
    exact lastPage_lt_total users.length pp hpp
  · rw [build_total_pages_eq] at hp2
    rw [build_entries_eq users (p : Int) pp v, clampPage_coe p _ hp1 hp2]
    constructor
    · rw [pageEntries_length, List.length_take, List.length_drop]
      omega
    · rw [pageEntries_map_rank, List.length_take, List.length_drop]
      congr 1
      omega
  · rw [build_total_pages_eq]
    have hcongr : ∀ k ∈ List.range (max 1 ((users.length + pp - 1) / pp)),
        (build_leaderboard_text users ((k : Int) + 1) pp v).entries
          = ((pageEntries v 1 users).drop (k * pp)).take pp := by
      intro k hk
      have hklt : k < max 1 ((users.length + pp - 1) / pp) := List.mem_range.mp hk
      have hcast : ((k : Int) + 1) = (((k + 1 : Nat)) : Int) := by push_cast; ring
      rw [hcast, build_entries_eq users ((k + 1 : Nat) : Int) pp v,
        clampPage_coe (k + 1) _ (by omega) (by omega)]
      simp only [Nat.add_sub_cancel]
      rw [pageEntries_take, (by omega : k * pp + 1 = 1 + k * pp),
        pageEntries_drop v 1 (k * pp) users, List.take_eq_take,
        List.length_drop, pageEntries_length]
      omega
    rw [List.map_congr_left hcongr, join_chunks pp _ (pageEntries v 1 users)]
    apply List.take_of_length_le
    rw [pageEntries_length]
    exact total_le_totalPages_mul users.length pp hpp

/-- C1 witness: the pagination claim evaluated on the three-user
ordering `sampleUsers` at two entries per page. -/
theorem c1_pagination_witness :
    1 ≤ 2
    ∧ ((build_leaderboard_text sampleUsers 1 2 9).total_pages
          = max 1 ((sampleUsers.length + 2 - 1) / 2)
      ∧ sampleUsers.length ≤ (build_leaderboard_text sampleUsers 1 2 9).total_pages * 2
      ∧ (2 ≤ (build_leaderboard_text sampleUsers 1 2 9).total_pages →
          ((build_leaderboard_text sampleUsers 1 2 9).total_pages - 1) * 2
            < sampleUsers.length)
      ∧ (∀ p : Nat, 1 ≤ p → p ≤ (build_leaderboard_text sampleUsers 1 2 9).total_pages →
          (build_leaderboard_text sampleUsers (p : Int) 2 9).entries.length
              = min 2 (sampleUsers.length - (p - 1) * 2)
          ∧ (build_leaderboard_text sampleUsers (p : Int) 2 9).entries.map Entry.rank
              = List.range' ((p - 1) * 2 + 1) (min 2 (sampleUsers.length - (p - 1) * 2)))
      ∧ ((List.range (build_leaderboard_text sampleUsers 1 2 9).total_pages).map
            (fun k : Nat => (build_leaderboard_text sampleUsers ((k : Int) + 1) 2 9).entries)).flatten
          = pageEntries 9 1 sampleUsers) :=
  ⟨by decide, c1_pagination sampleUsers 2 9 (by decide)⟩

end Leaderboard
